import Mathlib

/-!
Verification of the `joppe/graph` charting helper.

The chart maps logical (data-space) points to pixel coordinates of a
fixed-size surface through an affine transform with a vertical flip and a
fixed pixel margin, and renders a polyline, grid lines, axes and tick
labels.  Numbers are modelled by `ℚ`; each drawing method is embedded as a
pure function returning the (unchanged) chart state together with the list
of canvas operations it performs, tagged with the surface they target.

Two source variants exist: the dual-surface `Graph` (background for chart
furniture, foreground for the data plot, from `src/graph/Graph.ts`) and a
single-surface variant (`Single.Graph` below).
-/

namespace GraphModel

/-- A point, in logical or pixel space (`geometry.point.Point`). -/
structure Point where
  x : ℚ
  y : ℚ
  deriving DecidableEq

/-- A surface size in pixels (`geometry.size.Size`). -/
structure Size where
  width : ℚ
  height : ℚ
  deriving DecidableEq

/-- A numeric range (`number.range.Range`): `min`/`max`, ordering not enforced. -/
structure Range where
  min : ℚ
  max : ℚ
  deriving DecidableEq

/-- Line style: stroke colour and line width (`LineStyle`). -/
structure LineStyle where
  strokeStyle : String
  lineWidth : ℚ
  deriving DecidableEq

/-- A partial line style (`Partial<LineStyle>`): every field optional. -/
structure LineStyleOpt where
  strokeStyle : Option String := none
  lineWidth : Option ℚ := none
  deriving DecidableEq

/-- Text style (`TextStyle`). -/
structure TextStyle where
  font : String
  fillStyle : String
  textAlign : String
  deriving DecidableEq

/-- A partial text style (`Partial<TextStyle>`). -/
structure TextStyleOpt where
  font : Option String := none
  fillStyle : Option String := none
  textAlign : Option String := none
  deriving DecidableEq

/-- Object-spread merge `{...base, ...o}` for line styles: a field given in
the override wins, otherwise the base value is kept. -/
def mergeLineStyle (base : LineStyle) (o : LineStyleOpt) : LineStyle :=
  ⟨o.strokeStyle.getD base.strokeStyle, o.lineWidth.getD base.lineWidth⟩

/-- Object-spread merge `{...base, ...o}` for text styles. -/
def mergeTextStyle (base : TextStyle) (o : TextStyleOpt) : TextStyle :=
  ⟨o.font.getD base.font, o.fillStyle.getD base.fillStyle,
   o.textAlign.getD base.textAlign⟩

/-- Modelled from the spec: the affine `Transform` of the external
`geometry` package (spec §4.1), which is not part of this repository.  The
state is the canvas-style 2×3 affine matrix `[[a, c, e], [b, d, f]]`;
`scale` and `translate` compose by right multiplication — each new
operation acts in the current local coordinate system, exactly the
composition order pinned down by the endpoint properties of spec §8. -/
structure Transform where
  a : ℚ
  b : ℚ
  c : ℚ
  d : ℚ
  e : ℚ
  f : ℚ
  deriving DecidableEq

/-- Modelled from the spec: `Transform.identity()` resets to the identity matrix. -/
def Transform.identity : Transform := ⟨1, 0, 0, 1, 0, 0⟩

/-- Modelled from the spec: `Transform.scale(sx, sy)` post-multiplies the
matrix by the diagonal scale matrix. -/
def Transform.scale (t : Transform) (sx sy : ℚ) : Transform :=
  ⟨t.a * sx, t.b * sx, t.c * sy, t.d * sy, t.e, t.f⟩

/-- Modelled from the spec: `Transform.translate(tx, ty)` post-multiplies
the matrix by a translation matrix. -/
def Transform.translate (t : Transform) (tx ty : ℚ) : Transform :=
  ⟨t.a, t.b, t.c, t.d, t.a * tx + t.c * ty + t.e, t.b * tx + t.d * ty + t.f⟩

/-- Modelled from the spec: `Transform.transformPoint(p)` applies the
current matrix to a logical point, returning a pixel point. -/
def Transform.transformPoint (t : Transform) (p : Point) : Point :=
  ⟨t.a * p.x + t.c * p.y + t.e, t.b * p.x + t.d * p.y + t.f⟩

/-- Fixed pixel margin on all sides (`const OFFSET = 30`). -/
def OFFSET : ℚ := 30

/-- Default colour of the data polyline (`PLOT_LINE_COLOR`). -/
def PLOT_LINE_COLOR : String := "#308c2c"

/-- Default colour of grid lines (`GRID_LINE_COLOR`). -/
def GRID_LINE_COLOR : String := "#88abcf"

/-- Default colour of axis lines (`AXIS_LINE_COLOR`). -/
def AXIS_LINE_COLOR : String := "#ff0000"

/-- Default line style (`DEFAULT_LINE_STYLE`). -/
def DEFAULT_LINE_STYLE : LineStyle := ⟨"#000000", 1⟩

/-- Default text style (`DEFAULT_TEXT_STYLE`). -/
def DEFAULT_TEXT_STYLE : TextStyle := ⟨"10pt Arial", "#000000", "right"⟩

/-- Modelled from the spec: the stepped-range iterator `range(min, max, step)`
of the external `array` package (spec §6, §4.2), which is not part of this
repository: the finite sequence `min, min + step, min + 2·step, …` of every
value that stays ≤ `max` (so `min` is yielded first and `max` is reached
exactly when `max - min` is a multiple of `step`); empty when `min > max`.
Only positive steps are modelled — with a non-positive step the generator
in the source never terminates. -/
def rangeSeq (lo hi step : ℚ) : List ℚ :=
  if 0 < step ∧ lo ≤ hi then
    (List.range ((⌊(hi - lo) / step⌋).toNat + 1)).map (fun (i : ℕ) => lo + (i : ℚ) * step)
  else
    []

/-- Modelled from the spec: `inRange(value, range)` of the external `number`
package: whether the value lies in the closed interval `[range.min, range.max]`
(spec §4.2: the axis sits at 0 exactly when 0 lies within the range, i.e.
`min ≤ 0 ≤ max`, matching the inline check of the single-surface variant). -/
def inRange (value : ℚ) (r : Range) : Bool :=
  decide (r.min ≤ value) && decide (value ≤ r.max)

/-- Which of the two canvases an operation targets. -/
inductive Surface where
  | background
  | foreground
  deriving DecidableEq

/-- One primitive canvas operation: `clear()`, the `line` primitive, or the
`text` primitive (already at pixel coordinates). -/
inductive CanvasOp where
  | clear
  | strokeLine (start stop : Point) (style : LineStyle)
  | fillText (str : String) (pos : Point) (style : TextStyle)
  deriving DecidableEq

/-- The dual-surface chart state (`class Graph` in `src/graph/Graph.ts`):
surface size, the two logical ranges, and the owned transform. -/
structure Graph where
  size : Size
  xRange : Range
  yRange : Range
  transform : Transform
  deriving DecidableEq

/-- `Graph.updateTransform`: rebuild the matrix from scratch — identity,
flip the y-axis, move the origin to the bottom, apply the margin, scale
range-width to inner surface width, align the range minima. -/
def Graph.updateTransform (g : Graph) : Graph :=
  let t := Transform.identity
  let t := t.scale 1 (-1)
  let t := t.translate 0 (-g.size.height)
  let t := t.translate OFFSET OFFSET
  let t := t.scale
    ((g.size.width - OFFSET * 2) / (g.xRange.max - g.xRange.min))
    ((g.size.height - OFFSET * 2) / (g.yRange.max - g.yRange.min))
  let t := t.translate (-g.xRange.min) (-g.yRange.min)
  { g with transform := t }

/-- The `xRange` setter: store the range, then recompute the transform. -/
def Graph.setXRange (g : Graph) (r : Range) : Graph :=
  Graph.updateTransform { g with xRange := r }

/-- The `yRange` setter: store the range, then recompute the transform. -/
def Graph.setYRange (g : Graph) (r : Range) : Graph :=
  Graph.updateTransform { g with yRange := r }

/-- The constructor: ranges start at `{min: 0, max: 0}` and the transform
at identity, then the setters install the default ranges
`[0, size.width]` and `[0, size.height]`. -/
def Graph.new (size : Size) : Graph :=
  let g : Graph :=
    { size := size, xRange := ⟨0, 0⟩, yRange := ⟨0, 0⟩,
      transform := Transform.identity }
  let g := g.setXRange ⟨0, size.width⟩
  g.setYRange ⟨0, size.height⟩

/-- The loop body of `Graph.plot`: walk the points keeping the previous one;
from the second point on, stroke a line from the transformed previous point
to the transformed current point. -/
def plotLoop (t : Transform) (styling : LineStyle) :
    Option Point → List Point → List CanvasOp
  | _, [] => []
  | none, p :: rest => plotLoop t styling (some p) rest
  | some prev, p :: rest =>
      CanvasOp.strokeLine (t.transformPoint prev) (t.transformPoint p) styling ::
        plotLoop t styling (some p) rest

/-- `Graph.plot(points, lineStyle)`: merge the style
(`{...DEFAULT_LINE_STYLE, strokeStyle: PLOT_LINE_COLOR, ...lineStyle}`),
clear the foreground canvas, then stroke the pairwise segments onto the
foreground canvas. -/
def Graph.plot (g : Graph) (points : List Point) (lineStyle : LineStyleOpt) :
    Graph × List (Surface × CanvasOp) :=
  let styling :=
    mergeLineStyle { DEFAULT_LINE_STYLE with strokeStyle := PLOT_LINE_COLOR } lineStyle
  (g, (Surface.foreground, CanvasOp.clear) ::
    (plotLoop g.transform styling none points).map (fun op => (Surface.foreground, op)))

/-- `Graph.drawXLabels(step, textStyle)`: one text label per x tick on the
background canvas, nudged 15px down, at the axis height (0 when 0 is in
`yRange`, else `yRange.min`). -/
def Graph.drawXLabels (g : Graph) (step : ℚ) (textStyle : TextStyleOpt) :
    Graph × List (Surface × CanvasOp) :=
  let styling :=
    mergeTextStyle { DEFAULT_TEXT_STYLE with textAlign := "center" } textStyle
  let y : ℚ := if inRange 0 g.yRange then 0 else g.yRange.min
  (g, (rangeSeq g.xRange.min g.xRange.max step).map (fun x =>
    let position := g.transform.transformPoint ⟨x, y⟩
    (Surface.background,
      CanvasOp.fillText (toString x) ⟨position.x, position.y + 15⟩ styling)))

/-- `Graph.drawYLabels(step, textStyle)`: one text label per y tick on the
background canvas, nudged 5px left and 5px down, at the axis abscissa. -/
def Graph.drawYLabels (g : Graph) (step : ℚ) (textStyle : TextStyleOpt) :
    Graph × List (Surface × CanvasOp) :=
  let styling := mergeTextStyle DEFAULT_TEXT_STYLE textStyle
  let x : ℚ := if inRange 0 g.xRange then 0 else g.xRange.min
  (g, (rangeSeq g.yRange.min g.yRange.max step).map (fun y =>
    let point := g.transform.transformPoint ⟨x, y⟩
    (Surface.background,
      CanvasOp.fillText (toString y) ⟨point.x - 5, point.y + 5⟩ styling)))

/-- `Graph.drawGrid(xStep, yStep, lineStyle)`: one full-height vertical line
per x tick, then one full-width horizontal line per y tick, all on the
background canvas. -/
def Graph.drawGrid (g : Graph) (xStep yStep : ℚ) (lineStyle : LineStyleOpt) :
    Graph × List (Surface × CanvasOp) :=
  let styling :=
    mergeLineStyle { DEFAULT_LINE_STYLE with strokeStyle := GRID_LINE_COLOR } lineStyle
  (g,
    (rangeSeq g.xRange.min g.xRange.max xStep).map (fun x =>
      (Surface.background, CanvasOp.strokeLine
        (g.transform.transformPoint ⟨x, g.yRange.min⟩)
        (g.transform.transformPoint ⟨x, g.yRange.max⟩) styling)) ++
    (rangeSeq g.yRange.min g.yRange.max yStep).map (fun y =>
      (Surface.background, CanvasOp.strokeLine
        (g.transform.transformPoint ⟨g.xRange.min, y⟩)
        (g.transform.transformPoint ⟨g.xRange.max, y⟩) styling)))

/-- `Graph.drawXAxis(lineStyle)`: one line across the x range on the
background canvas, at y = 0 when 0 lies in `yRange`, else at `yRange.min`. -/
def Graph.drawXAxis (g : Graph) (lineStyle : LineStyleOpt) :
    Graph × List (Surface × CanvasOp) :=
  let styling :=
    mergeLineStyle
      { DEFAULT_LINE_STYLE with strokeStyle := AXIS_LINE_COLOR, lineWidth := 2 }
      lineStyle
  let y : ℚ := if inRange 0 g.yRange then 0 else g.yRange.min
  (g, [(Surface.background, CanvasOp.strokeLine
    (g.transform.transformPoint ⟨g.xRange.min, y⟩)
    (g.transform.transformPoint ⟨g.xRange.max, y⟩) styling)])

/-- `Graph.drawYAxis(lineStyle)`: one line across the y range on the
background canvas, at x = 0 when 0 lies in `xRange`, else at `xRange.min`. -/
def Graph.drawYAxis (g : Graph) (lineStyle : LineStyleOpt) :
    Graph × List (Surface × CanvasOp) :=
  let styling :=
    mergeLineStyle
      { DEFAULT_LINE_STYLE with strokeStyle := AXIS_LINE_COLOR, lineWidth := 2 }
      lineStyle
  let x : ℚ := if inRange 0 g.xRange then 0 else g.xRange.min
  (g, [(Surface.background, CanvasOp.strokeLine
    (g.transform.transformPoint ⟨x, g.yRange.min⟩)
    (g.transform.transformPoint ⟨x, g.yRange.max⟩) styling)])

namespace Single

/-- The single-surface chart variant (`class Graph` of the second source
file): one canvas, same size/range/transform state. -/
structure Graph where
  size : Size
  xRange : Range
  yRange : Range
  transform : Transform
  deriving DecidableEq

/-- `updateTransform` of the single-surface variant — textually the same
six steps as in the dual-surface variant. -/
def Graph.updateTransform (g : Graph) : Graph :=
  let t := Transform.identity
  let t := t.scale 1 (-1)
  let t := t.translate 0 (-g.size.height)
  let t := t.translate OFFSET OFFSET
  let t := t.scale
    ((g.size.width - OFFSET * 2) / (g.xRange.max - g.xRange.min))
    ((g.size.height - OFFSET * 2) / (g.yRange.max - g.yRange.min))
  let t := t.translate (-g.xRange.min) (-g.yRange.min)
  { g with transform := t }

end Single

/-- One drawing call of the fluent API (the operations that paint but do
not change the range state). -/
inductive DrawCmd where
  | plot (points : List Point) (style : LineStyleOpt)
  | drawGrid (xStep yStep : ℚ) (style : LineStyleOpt)
  | drawXAxis (style : LineStyleOpt)
  | drawYAxis (style : LineStyleOpt)
  | drawXLabels (step : ℚ) (style : TextStyleOpt)
  | drawYLabels (step : ℚ) (style : TextStyleOpt)

/-- Run one drawing call on a chart. -/
def execCmd (g : Graph) : DrawCmd → Graph × List (Surface × CanvasOp)
  | DrawCmd.plot ps s => g.plot ps s
  | DrawCmd.drawGrid xs ys s => g.drawGrid xs ys s
  | DrawCmd.drawXAxis s => g.drawXAxis s
  | DrawCmd.drawYAxis s => g.drawYAxis s
  | DrawCmd.drawXLabels st s => g.drawXLabels st s
  | DrawCmd.drawYLabels st s => g.drawYLabels st s

/-- Run a sequence of drawing calls, threading the chart state and
concatenating the emitted canvas operations. -/
def execCmds (g : Graph) : List DrawCmd → Graph × List (Surface × CanvasOp)
  | [] => (g, [])
  | c :: cs =>
    let r := execCmd g c
    let rest := execCmds r.1 cs
    (rest.1, r.2 ++ rest.2)

/-- Modelled from the spec: the six-step matrix composition of §4.1, written
exactly in the spec's order and wording — identity; scale(1, −1);
translate(0, −height); translate(OFFSET, OFFSET); scale by inner size over
range width; translate(−xRange.min, −yRange.min). -/
def specRecompute (size : Size) (xr yr : Range) : Transform :=
  ((((Transform.identity.scale 1 (-1)).translate 0 (-size.height)).translate
      OFFSET OFFSET).scale
    ((size.width - 2 * OFFSET) / (xr.max - xr.min))
    ((size.height - 2 * OFFSET) / (yr.max - yr.min))).translate
    (-xr.min) (-yr.min)

/-! ### Helper lemmas -/

/-- `inRange` decides membership in the closed interval. -/
lemma inRange_eq_true_iff (v : ℚ) (r : Range) :
    inRange v r = true ↔ (r.min ≤ v ∧ v ≤ r.max) := by
  simp [inRange]

/-- Starting from a remembered previous point, the plot loop strokes exactly
the pairwise segments of `q :: ps`. -/
lemma plotLoop_some_eq (t : Transform) (st : LineStyle) (q : Point) (ps : List Point) :
    plotLoop t st (some q) ps =
      ((q :: ps).zip ps).map (fun pq =>
        CanvasOp.strokeLine (t.transformPoint pq.1) (t.transformPoint pq.2) st) := by
  induction ps generalizing q with
  | nil => rfl
  | cons p rest ih => simp [plotLoop, ih p, List.zip_cons_cons]

/-- The plot loop strokes exactly the pairwise segments of the point list. -/
lemma plotLoop_none_eq (t : Transform) (st : LineStyle) (ps : List Point) :
    plotLoop t st none ps =
      (ps.zip ps.tail).map (fun pq =>
        CanvasOp.strokeLine (t.transformPoint pq.1) (t.transformPoint pq.2) st) := by
  cases ps with
  | nil => rfl
  | cons p rest => simp [plotLoop, plotLoop_some_eq]

/-- Index bound of the stepped-range iterator: index `k` is in range exactly
when the `k`-th value still lies below the upper bound. -/
lemma rangeSeq_index_le (lo hi step : ℚ) (hstep : 0 < step) (hle : lo ≤ hi) (k : ℕ) :
    k ≤ (⌊(hi - lo) / step⌋).toNat ↔ lo + (k : ℚ) * step ≤ hi := by
  have h0 : (0 : ℚ) ≤ (hi - lo) / step := div_nonneg (by linarith) hstep.le
  have h1 : (0 : ℤ) ≤ ⌊(hi - lo) / step⌋ := Int.floor_nonneg.mpr h0
  rw [Int.le_toNat h1, Int.le_floor]
  push_cast
  rw [le_div_iff₀ hstep]
  constructor <;> intro h <;> linarith

/-- Membership in the stepped-range iterator: exactly the values
`lo + k·step` that do not exceed `hi`. -/
lemma mem_rangeSeq (lo hi step v : ℚ) (hstep : 0 < step) (hle : lo ≤ hi) :
    v ∈ rangeSeq lo hi step ↔ ∃ k : ℕ, v = lo + (k : ℚ) * step ∧ v ≤ hi := by
  rw [rangeSeq, if_pos ⟨hstep, hle⟩]
  constructor
  · intro hv
    obtain ⟨i, hmem, hfi⟩ := List.mem_map.mp hv
    have hilt : i ≤ (⌊(hi - lo) / step⌋).toNat :=
      Nat.lt_succ_iff.mp (List.mem_range.mp hmem)
    refine ⟨i, hfi.symm, ?_⟩
    rw [← hfi]
    exact (rangeSeq_index_le lo hi step hstep hle i).mp hilt
  · rintro ⟨k, hv, hvle⟩
    refine List.mem_map.mpr ⟨k, List.mem_range.mpr (Nat.lt_succ_iff.mpr ?_), hv.symm⟩
    rw [rangeSeq_index_le lo hi step hstep hle k, ← hv]
    exact hvle

/-- Concrete evaluation of the stepped range: ticks of `[0, 100]` with step
50 are exactly 0, 50, 100. -/
lemma rangeSeq_zero_100_50 : rangeSeq (0 : ℚ) 100 50 = [0, 50, 100] := by
  have hfl : ⌊((100 : ℚ) - 0) / 50⌋ = 2 := by norm_num
  rw [rangeSeq, if_pos (⟨by norm_num, by norm_num⟩ : (0 : ℚ) < 50 ∧ (0 : ℚ) ≤ 100), hfl]
  show List.map (fun (i : ℕ) => (0 : ℚ) + (i : ℚ) * 50) [0, 1, 2] = [0, 50, 100]
  norm_num

/-! ### The claims -/

/-- C1.  After setting either range, the chart's transform matrix equals the
six-step composition of spec §4.1 applied in that exact order: identity,
scale(1, −1), translate(0, −height), translate(OFFSET, OFFSET), scale by
inner width/height over range width/height, translate(−xRange.min, −yRange.min). -/
theorem setRange_transform_eq_specRecompute_c1 (g : Graph) (r : Range) :
    (g.setXRange r).transform = specRecompute g.size r g.yRange ∧
    (g.setYRange r).transform = specRecompute g.size g.xRange r := by
  have h : (OFFSET * 2 : ℚ) = 2 * OFFSET := by ring
  constructor <;>
    simp [Graph.setXRange, Graph.setYRange, Graph.updateTransform, specRecompute, h]

/-- C2.  A chart constructed with size `{W, H}` (with `W, H > 2·OFFSET`) has
default ranges `[0, W]` and `[0, H]`, and its transform maps logical x = 0
to pixel x = OFFSET, x = W to pixel x = W − OFFSET (for every y), logical
y = 0 to pixel y = H − OFFSET and y = H to pixel y = OFFSET (for every x). -/
theorem new_transformPoint_edges_c2 (W H : ℚ) (hW : 2 * OFFSET < W) (hH : 2 * OFFSET < H) :
    (Graph.new ⟨W, H⟩).xRange = ⟨0, W⟩ ∧
    (Graph.new ⟨W, H⟩).yRange = ⟨0, H⟩ ∧
    (∀ y, ((Graph.new ⟨W, H⟩).transform.transformPoint ⟨0, y⟩).x = OFFSET) ∧
    (∀ y, ((Graph.new ⟨W, H⟩).transform.transformPoint ⟨W, y⟩).x = W - OFFSET) ∧
    (∀ x, ((Graph.new ⟨W, H⟩).transform.transformPoint ⟨x, 0⟩).y = H - OFFSET) ∧
    (∀ x, ((Graph.new ⟨W, H⟩).transform.transformPoint ⟨x, H⟩).y = OFFSET) := by
  have hW0 : W ≠ 0 := by
    have : (0 : ℚ) < W := lt_trans (by norm_num [OFFSET]) hW
    exact this.ne'
  have hH0 : H ≠ 0 := by
    have : (0 : ℚ) < H := lt_trans (by norm_num [OFFSET]) hH
    exact this.ne'
  refine ⟨rfl, rfl, ?_, ?_, ?_, ?_⟩ <;> intro v <;>
    simp [Graph.new, Graph.setXRange, Graph.setYRange, Graph.updateTransform,
      Transform.identity, Transform.scale, Transform.translate,
      Transform.transformPoint, OFFSET] <;>
    first
    | ring1
    | (field_simp; ring1)

/-- C2 witness: at size 600×600 the left edge of the default x range lands
on pixel x = OFFSET. -/
theorem new_transformPoint_edges_c2_witness :
    2 * OFFSET < (600 : ℚ) ∧
    ((Graph.new ⟨600, 600⟩).transform.transformPoint ⟨0, 7⟩).x = OFFSET := by
  have h : 2 * OFFSET < (600 : ℚ) := by norm_num [OFFSET]
  exact ⟨h, (new_transformPoint_edges_c2 600 600 h h).2.2.1 7⟩

/-- C3.  `plot` emits the foreground clear followed by exactly the pairwise
segments of the point list (transformed previous point to transformed
current point, in order): `N − 1` stroked segments for `N` points, hence
zero segments for an empty or one-point sequence. -/
theorem plot_segments_c3 (g : Graph) (ps : List Point) (s : LineStyleOpt) :
    (g.plot ps s).2 =
      (Surface.foreground, CanvasOp.clear) ::
        (ps.zip ps.tail).map (fun pq =>
          (Surface.foreground, CanvasOp.strokeLine
            (g.transform.transformPoint pq.1) (g.transform.transformPoint pq.2)
            (mergeLineStyle { DEFAULT_LINE_STYLE with strokeStyle := PLOT_LINE_COLOR } s))) ∧
    ((g.plot ps s).2).tail.length = ps.length - 1 := by
  have h1 : (g.plot ps s).2 =
      (Surface.foreground, CanvasOp.clear) ::
        (ps.zip ps.tail).map (fun pq =>
          (Surface.foreground, CanvasOp.strokeLine
            (g.transform.transformPoint pq.1) (g.transform.transformPoint pq.2)
            (mergeLineStyle { DEFAULT_LINE_STYLE with strokeStyle := PLOT_LINE_COLOR } s))) := by
    simp [Graph.plot, plotLoop_none_eq, List.map_map]
  refine ⟨h1, ?_⟩
  rw [h1]
  simp [List.length_zip, List.length_tail]

/-- C4.  `drawGrid` draws one full-height vertical line per tick of the
stepped x range and one full-width horizontal line per tick of the stepped
y range, on the background; for a positive step the ticks are exactly the
values `min + k·step ≤ max`, so `min` is always a tick and `max` is a tick
exactly when `max − min` is a multiple of the step; in particular the ticks
of `[0, 100]` with step 50 are exactly 0, 50, 100 (three vertical lines). -/
theorem drawGrid_ticks_c4 (g : Graph) (xStep yStep : ℚ) (s : LineStyleOpt) :
    ((g.drawGrid xStep yStep s).2 =
      (rangeSeq g.xRange.min g.xRange.max xStep).map (fun x =>
        (Surface.background, CanvasOp.strokeLine
          (g.transform.transformPoint ⟨x, g.yRange.min⟩)
          (g.transform.transformPoint ⟨x, g.yRange.max⟩)
          (mergeLineStyle { DEFAULT_LINE_STYLE with strokeStyle := GRID_LINE_COLOR } s))) ++
      (rangeSeq g.yRange.min g.yRange.max yStep).map (fun y =>
        (Surface.background, CanvasOp.strokeLine
          (g.transform.transformPoint ⟨g.xRange.min, y⟩)
          (g.transform.transformPoint ⟨g.xRange.max, y⟩)
          (mergeLineStyle { DEFAULT_LINE_STYLE with strokeStyle := GRID_LINE_COLOR } s)))) ∧
    (0 < xStep → g.xRange.min ≤ g.xRange.max →
      (∀ v, v ∈ rangeSeq g.xRange.min g.xRange.max xStep ↔
        ∃ k : ℕ, v = g.xRange.min + (k : ℚ) * xStep ∧ v ≤ g.xRange.max) ∧
      g.xRange.min ∈ rangeSeq g.xRange.min g.xRange.max xStep ∧
      (g.xRange.max ∈ rangeSeq g.xRange.min g.xRange.max xStep ↔
        ∃ k : ℕ, g.xRange.max - g.xRange.min = (k : ℚ) * xStep)) ∧
    (0 < yStep → g.yRange.min ≤ g.yRange.max →
      (∀ v, v ∈ rangeSeq g.yRange.min g.yRange.max yStep ↔
        ∃ k : ℕ, v = g.yRange.min + (k : ℚ) * yStep ∧ v ≤ g.yRange.max) ∧
      g.yRange.min ∈ rangeSeq g.yRange.min g.yRange.max yStep ∧
      (g.yRange.max ∈ rangeSeq g.yRange.min g.yRange.max yStep ↔
        ∃ k : ℕ, g.yRange.max - g.yRange.min = (k : ℚ) * yStep)) ∧
    rangeSeq (0 : ℚ) 100 50 = [0, 50, 100] := by
  refine ⟨rfl, ?_, ?_, rangeSeq_zero_100_50⟩ <;> intro hstep hle <;>
    refine ⟨fun v => mem_rangeSeq _ _ _ v hstep hle, ?_, ?_⟩
  · exact (mem_rangeSeq _ _ _ _ hstep hle).mpr ⟨0, by push_cast; ring, hle⟩
  · rw [mem_rangeSeq _ _ _ _ hstep hle]
    constructor <;> rintro ⟨k, hk⟩
    · exact ⟨k, by linarith [hk.1]⟩
    · exact ⟨k, by linarith, le_refl _⟩
  · exact (mem_rangeSeq _ _ _ _ hstep hle).mpr ⟨0, by push_cast; ring, hle⟩
  · rw [mem_rangeSeq _ _ _ _ hstep hle]
    constructor <;> rintro ⟨k, hk⟩
    · exact ⟨k, by linarith [hk.1]⟩
    · exact ⟨k, by linarith, le_refl _⟩

/-- C4 witness: on the default 600×600 chart with step 50, the x range
minimum is a grid tick. -/
theorem drawGrid_ticks_c4_witness :
    (0 : ℚ) < 50 ∧
    (Graph.new ⟨600, 600⟩).xRange.min ≤ (Graph.new ⟨600, 600⟩).xRange.max ∧
    (Graph.new ⟨600, 600⟩).xRange.min ∈
      rangeSeq (Graph.new ⟨600, 600⟩).xRange.min (Graph.new ⟨600, 600⟩).xRange.max 50 := by
  have hstep : (0 : ℚ) < 50 := by norm_num
  have hle : (Graph.new ⟨600, 600⟩).xRange.min ≤ (Graph.new ⟨600, 600⟩).xRange.max := by
    show (0 : ℚ) ≤ 600
    norm_num
  exact ⟨hstep, hle,
    ((drawGrid_ticks_c4 (Graph.new ⟨600, 600⟩) 50 50 ⟨none, none⟩).2.1 hstep hle).2.1⟩

/-- C5.  `drawXAxis` draws exactly one background line from
`(xRange.min, y)` to `(xRange.max, y)` with `y = 0` when 0 lies within the
y range and `y = yRange.min` otherwise; `drawYAxis` symmetrically draws one
line across the y range at `x = 0` or `x = xRange.min`. -/
theorem drawAxis_position_c5 (g : Graph) (s : LineStyleOpt) :
    ((g.yRange.min ≤ 0 ∧ 0 ≤ g.yRange.max) →
      (g.drawXAxis s).2 = [(Surface.background, CanvasOp.strokeLine
        (g.transform.transformPoint ⟨g.xRange.min, 0⟩)
        (g.transform.transformPoint ⟨g.xRange.max, 0⟩)
        (mergeLineStyle
          { DEFAULT_LINE_STYLE with strokeStyle := AXIS_LINE_COLOR, lineWidth := 2 } s))]) ∧
    (¬(g.yRange.min ≤ 0 ∧ 0 ≤ g.yRange.max) →
      (g.drawXAxis s).2 = [(Surface.background, CanvasOp.strokeLine
        (g.transform.transformPoint ⟨g.xRange.min, g.yRange.min⟩)
        (g.transform.transformPoint ⟨g.xRange.max, g.yRange.min⟩)
        (mergeLineStyle
          { DEFAULT_LINE_STYLE with strokeStyle := AXIS_LINE_COLOR, lineWidth := 2 } s))]) ∧
    ((g.xRange.min ≤ 0 ∧ 0 ≤ g.xRange.max) →
      (g.drawYAxis s).2 = [(Surface.background, CanvasOp.strokeLine
        (g.transform.transformPoint ⟨0, g.yRange.min⟩)
        (g.transform.transformPoint ⟨0, g.yRange.max⟩)
        (mergeLineStyle
          { DEFAULT_LINE_STYLE with strokeStyle := AXIS_LINE_COLOR, lineWidth := 2 } s))]) ∧
    (¬(g.xRange.min ≤ 0 ∧ 0 ≤ g.xRange.max) →
      (g.drawYAxis s).2 = [(Surface.background, CanvasOp.strokeLine
        (g.transform.transformPoint ⟨g.xRange.min, g.yRange.min⟩)
        (g.transform.transformPoint ⟨g.xRange.min, g.yRange.max⟩)
        (mergeLineStyle
          { DEFAULT_LINE_STYLE with strokeStyle := AXIS_LINE_COLOR, lineWidth := 2 } s))]) := by
  refine ⟨fun h => ?_, fun h => ?_, fun h => ?_, fun h => ?_⟩
  · have hb : inRange 0 g.yRange = true := (inRange_eq_true_iff 0 g.yRange).mpr h
    simp [Graph.drawXAxis, hb]
  · have hb : inRange 0 g.yRange = false := by
      cases hbb : inRange 0 g.yRange with
      | false => rfl
      | true => exact absurd ((inRange_eq_true_iff 0 g.yRange).mp hbb) h
    simp [Graph.drawXAxis, hb]
  · have hb : inRange 0 g.xRange = true := (inRange_eq_true_iff 0 g.xRange).mpr h
    simp [Graph.drawYAxis, hb]
  · have hb : inRange 0 g.xRange = false := by
      cases hbb : inRange 0 g.xRange with
      | false => rfl
      | true => exact absurd ((inRange_eq_true_iff 0 g.xRange).mp hbb) h
    simp [Graph.drawYAxis, hb]

/-- C5 witness: with yRange = [10, 50] (0 excluded) the x axis is drawn at
y = yRange.min = 10. -/
theorem drawAxis_position_c5_witness :
    ¬(((Graph.new ⟨600, 600⟩).setYRange ⟨10, 50⟩).yRange.min ≤ 0 ∧
        (0 : ℚ) ≤ ((Graph.new ⟨600, 600⟩).setYRange ⟨10, 50⟩).yRange.max) ∧
    (((Graph.new ⟨600, 600⟩).setYRange ⟨10, 50⟩).drawXAxis ⟨none, none⟩).2 =
      [(Surface.background, CanvasOp.strokeLine
        (((Graph.new ⟨600, 600⟩).setYRange ⟨10, 50⟩).transform.transformPoint
          ⟨((Graph.new ⟨600, 600⟩).setYRange ⟨10, 50⟩).xRange.min,
            ((Graph.new ⟨600, 600⟩).setYRange ⟨10, 50⟩).yRange.min⟩)
        (((Graph.new ⟨600, 600⟩).setYRange ⟨10, 50⟩).transform.transformPoint
          ⟨((Graph.new ⟨600, 600⟩).setYRange ⟨10, 50⟩).xRange.max,
            ((Graph.new ⟨600, 600⟩).setYRange ⟨10, 50⟩).yRange.min⟩)
        (mergeLineStyle
          { DEFAULT_LINE_STYLE with strokeStyle := AXIS_LINE_COLOR, lineWidth := 2 }
          ⟨none, none⟩))] := by
  have h : ¬(((Graph.new ⟨600, 600⟩).setYRange ⟨10, 50⟩).yRange.min ≤ 0 ∧
      (0 : ℚ) ≤ ((Graph.new ⟨600, 600⟩).setYRange ⟨10, 50⟩).yRange.max) := by
    show ¬((10 : ℚ) ≤ 0 ∧ (0 : ℚ) ≤ 50)
    norm_num
  exact ⟨h,
    (drawAxis_position_c5 ((Graph.new ⟨600, 600⟩).setYRange ⟨10, 50⟩) ⟨none, none⟩).2.1 h⟩

/-- C6.  Setting the x range twice in succession to the same value yields
the same transform matrix as setting it once. -/
theorem setXRange_idempotent_c6 (g : Graph) (r : Range) :
    ((g.setXRange r).setXRange r).transform = (g.setXRange r).transform := rfl

/-- C7.  `plot` first clears the foreground, every operation it emits
targets the foreground (the background is never cleared or drawn to), and
everything after the clear is a stroked line segment. -/
theorem plot_foreground_only_c7 (g : Graph) (ps : List Point) (s : LineStyleOpt) :
    (g.plot ps s).2.head? = some (Surface.foreground, CanvasOp.clear) ∧
    (∀ e ∈ (g.plot ps s).2, e.1 = Surface.foreground) ∧
    (∀ e ∈ (g.plot ps s).2.tail, ∃ p q st, e.2 = CanvasOp.strokeLine p q st) := by
  refine ⟨rfl, ?_, ?_⟩
  · intro e he
    rw [Graph.plot] at he
    simp only [List.mem_cons, List.mem_map] at he
    rcases he with rfl | ⟨op, _, rfl⟩ <;> rfl
  · intro e he
    rw [Graph.plot] at he
    simp only [List.tail_cons, plotLoop_none_eq, List.map_map, List.mem_map] at he
    rcases he with ⟨pq, _, rfl⟩
    exact ⟨_, _, _, rfl⟩

/-- C7 witness: on a concrete two-point plot, the clear event is in the
trace and targets the foreground surface. -/
theorem plot_foreground_only_c7_witness :
    (Surface.foreground, CanvasOp.clear) ∈
      ((Graph.new ⟨600, 600⟩).plot [⟨0, 0⟩, ⟨1, 1⟩] ⟨none, none⟩).2 ∧
    (Surface.foreground, CanvasOp.clear).1 = Surface.foreground := by
  have hm : (Surface.foreground, CanvasOp.clear) ∈
      ((Graph.new ⟨600, 600⟩).plot [⟨0, 0⟩, ⟨1, 1⟩] ⟨none, none⟩).2 :=
    List.mem_cons_self _ _
  exact ⟨hm, (plot_foreground_only_c7 (Graph.new ⟨600, 600⟩)
    [⟨0, 0⟩, ⟨1, 1⟩] ⟨none, none⟩).2.1 _ hm⟩

/-- C9.  The dual-surface and single-surface variants compute extensionally
equal transforms: from the same size and ranges, `updateTransform` builds
the same matrix in both, so `transformPoint` agrees on every logical point. -/
theorem variants_transform_agree_c9 (sz : Size) (xr yr : Range) (t₁ t₂ : Transform) :
    (Graph.updateTransform ⟨sz, xr, yr, t₁⟩).transform =
      (Single.Graph.updateTransform ⟨sz, xr, yr, t₂⟩).transform ∧
    ∀ p, ((Graph.updateTransform ⟨sz, xr, yr, t₁⟩).transform.transformPoint p =
      (Single.Graph.updateTransform ⟨sz, xr, yr, t₂⟩).transform.transformPoint p) :=
  ⟨rfl, fun _ => rfl⟩

/-- C10.  Every drawing operation returns the chart state unchanged (size,
ranges and transform included), and so does any sequence of drawing calls:
only the range setters and construction modify the transform. -/
theorem draw_preserves_state_c10 :
    (∀ (g : Graph) (c : DrawCmd), (execCmd g c).1 = g) ∧
    (∀ (g : Graph) (cs : List DrawCmd), (execCmds g cs).1 = g) := by
  have h1 : ∀ (g : Graph) (c : DrawCmd), (execCmd g c).1 = g := by
    intro g c
    cases c <;> rfl
  refine ⟨h1, ?_⟩
  intro g cs
  induction cs generalizing g with
  | nil => rfl
  | cons c rest ih => simp [execCmds, h1, ih]

end GraphModel
